import Mathlib

/-!
Verification development for the daily-trendz posting-session subsystem.

The definitions below are a shallow embedding of the JavaScript sources:
`src/lib/scheduler.js` (quota tracking and category selection),
`src/lib/dedupe.js` (novelty tracking with TTL expiry),
`src/lib/telegram.js` (transport wrapper `postDeal` and its retry loop), and
`src/api/run.js` (the orchestrated posting loop `postProducts`).

Module-level mutable state (daily counters, the posted-products map) is made
explicit state that every operation takes and returns.  The ambient clock is
an explicit parameter: `today` is the current calendar day string that
`new Date().toISOString().split` would produce, `now` is `Date.now()` in
epoch milliseconds.  JavaScript `x || d` defaulting on numbers (where both
`undefined` and `0` are falsy) is modelled by `jsOrNat`.  Configuration
(`config/limits.json`, `config/categories.json`) is passed in as read-only
structures, quantified over in the theorems.
-/

namespace DailyTrendz

/-- Product sources handled by the system (`flipkart`/`amazon`), per the
scheduler's documentation and the fixed counter fields of `dailyCounters`. -/
inductive Source
  | flipkart
  | amazon
deriving DecidableEq, Repr

def sourceName : Source → String
  | .flipkart => "flipkart"
  | .amazon => "amazon"

/-- JavaScript numeric defaulting `x || d`: both `undefined` and `0` are
falsy, so an absent or zero value falls back to the default. -/
def jsOrNat : Option Nat → Nat → Nat
  | some n, d => if n = 0 then d else n
  | none, d => d

/-- First-match lookup in an insertion-ordered association list, the model of
reading a key from a JS object or `Map`. -/
def lookupNat (l : List (String × Nat)) (k : String) : Option Nat :=
  (l.find? (fun p => p.1 == k)).map Prod.snd

/-- JS `obj[k] = (obj[k] || 0) + 1` on an object modelled as an ordered
association list: update in place if present, else append with value 1. -/
def bumpNat (l : List (String × Nat)) (k : String) : List (String × Nat) :=
  if (l.find? (fun p => p.1 == k)).isSome then
    l.map (fun p => if p.1 == k then (p.1, p.2 + 1) else p)
  else
    l ++ [(k, 1)]

/-- JS `Map.prototype.set`: overwrite in place if the key exists, else append. -/
def mapSet (l : List (String × Nat)) (k : String) (v : Nat) : List (String × Nat) :=
  if (l.find? (fun p => p.1 == k)).isSome then
    l.map (fun p => if p.1 == k then (p.1, v) else p)
  else
    l ++ [(k, v)]

/-- The module-level `dailyCounters` object of `src/lib/scheduler.js`. -/
structure Counters where
  flipkart : Nat
  amazon : Nat
  total : Nat
  byCategory : List (String × Nat)
  date : Option String
deriving DecidableEq, Repr

/-- Dynamic field read `dailyCounters[source]` for the two source keys. -/
def Counters.perSource (c : Counters) : Source → Nat
  | .flipkart => c.flipkart
  | .amazon => c.amazon

/-- The fields of `config/limits.json` read by the scheduler and transport. -/
structure Limits where
  total : Nat
  saleMode : Nat
  sourceCap : Source → Option Nat
  perCategory : Option Nat
  postsPerSlot : Option Nat
  retryOnFailure : Bool
  maxRetries : Nat

/-- The environment flags read by `getTotalLimit` and `isSaleMode`. -/
structure Env where
  overrideTotalLimit : Option Nat
  saleMode : Bool

/-- Embedding of `getTotalLimit` of `src/lib/scheduler.js`: an explicit
override wins, else the sale-mode cap when sale mode is active, else the
normal cap. -/
def getTotalLimit (env : Env) (lim : Limits) : Nat :=
  match env.overrideTotalLimit with
  | some n => n
  | none => if env.saleMode then lim.saleMode else lim.total

/-- The all-zero counters `initCounters` installs for a given day. -/
def mkFreshCounters (today : String) : Counters :=
  { flipkart := 0, amazon := 0, total := 0, byCategory := [], date := some today }

/-- Embedding of `initCounters` of `src/lib/scheduler.js`: reset to all-zero
counters for `today` when forced or when the stored day differs. -/
def initCounters (force : Bool) (today : String) (c : Counters) : Counters :=
  if force = true ∨ c.date ≠ some today then mkFreshCounters today else c

/-- Embedding of `canPost` of `src/lib/scheduler.js`.  Returns the possibly
day-reset counters together with the `{ allowed, reason }` pair. -/
def canPost (today : String) (env : Env) (lim : Limits) (c : Counters)
    (source : Source) (categoryKey : String) : Counters × Bool × String :=
  let c := initCounters false today c
  let totalLimit := getTotalLimit env lim
  let sourceLimit := jsOrNat (lim.sourceCap source) 10
  let categoryLimit := jsOrNat lim.perCategory 4
  if c.total ≥ totalLimit then
    (c, false, "Daily total limit reached")
  else if c.perSource source ≥ sourceLimit then
    (c, false, "Daily " ++ sourceName source ++ " limit reached")
  else
    let categoryCount := (lookupNat c.byCategory categoryKey).getD 0
    if categoryCount ≥ categoryLimit then
      (c, false, "Category " ++ categoryKey ++ " limit reached")
    else
      (c, true, "OK")

/-- Embedding of `incrementCounters` of `src/lib/scheduler.js`. -/
def incrementCounters (today : String) (c : Counters)
    (source : Source) (categoryKey : String) : Counters :=
  let c := initCounters false today c
  let c := { c with total := c.total + 1 }
  let c :=
    match source with
    | .flipkart => { c with flipkart := c.flipkart + 1 }
    | .amazon => { c with amazon := c.amazon + 1 }
  { c with byCategory := bumpNat c.byCategory categoryKey }

/-- Embedding of `getPostsForSession` of `src/lib/scheduler.js`.  The
remaining budget `totalLimit - dailyCounters.total` is a JS number that can
go negative, hence `Int`. -/
def getPostsForSession (today : String) (env : Env) (lim : Limits)
    (c : Counters) : Counters × Int :=
  let c := initCounters false today c
  let postsPerSlot := jsOrNat lim.postsPerSlot 4
  let remaining : Int := (getTotalLimit env lim : Int) - (c.total : Int)
  (c, min (postsPerSlot : Int) remaining)

/-- One day's worth of `incrementCounters` calls, applied in order. -/
def applyPosts (today : String) (calls : List (Source × String)) (c : Counters) : Counters :=
  calls.foldl (fun c sc => incrementCounters today c sc.1 sc.2) c

theorem initCounters_same_day {today : String} {c : Counters}
    (h : c.date = some today) : initCounters false today c = c := by
  simp [initCounters, h]

theorem incrementCounters_invariant {today : String} {c : Counters}
    (hd : c.date = some today) (h : c.total = c.flipkart + c.amazon)
    (source : Source) (categoryKey : String) :
    (incrementCounters today c source categoryKey).total =
        (incrementCounters today c source categoryKey).flipkart +
          (incrementCounters today c source categoryKey).amazon ∧
      (incrementCounters today c source categoryKey).date = some today := by
  refine ⟨?_, ?_⟩ <;> cases source <;>
      simp [incrementCounters, initCounters_same_day hd, hd] <;> omega

theorem applyPosts_invariant (today : String) (calls : List (Source × String)) :
    ∀ c : Counters, c.date = some today → c.total = c.flipkart + c.amazon →
      (applyPosts today calls c).total =
          (applyPosts today calls c).flipkart + (applyPosts today calls c).amazon ∧
        (applyPosts today calls c).date = some today := by
  induction calls with
  | nil => intro c hd h; exact ⟨h, hd⟩
  | cons sc rest ih =>
    intro c hd h
    have step := incrementCounters_invariant hd h sc.1 sc.2
    exact ih _ step.2 step.1

/-- C1: starting from freshly reset counters, after any sequence of
`incrementCounters(source, categoryKey)` calls within one simulated day with
sources in \x7bflipkart, amazon\x7d, the invariant
`total == perSource flipkart + perSource amazon` holds (and since the list of
calls is universally quantified, it holds after every call of any sequence). -/
theorem C1_counter_invariant (today : String) (calls : List (Source × String)) :
    (applyPosts today calls (mkFreshCounters today)).total =
      (applyPosts today calls (mkFreshCounters today)).perSource Source.flipkart +
        (applyPosts today calls (mkFreshCounters today)).perSource Source.amazon := by
  have h := applyPosts_invariant today calls (mkFreshCounters today) rfl rfl
  simpa [Counters.perSource] using h.1

/-- C2: with counters dated today (so the internal `initCounters` is a no-op),
`canPost` checks the caps in the fixed order total, then per-source (cap
defaulting to 10 when the source is unconfigured), then per-category (cap
defaulting to 4), returning the first violated cap's reason; whenever
`counters.total` is at least the total limit it returns the total-limit
reason regardless of source and category state, and it returns allowed with
reason "OK" exactly when all three checks pass. -/
theorem C2_canPost_check_order (today : String) (env : Env) (lim : Limits)
    (c : Counters) (source : Source) (categoryKey : String)
    (hd : c.date = some today) :
    (c.total ≥ getTotalLimit env lim →
        canPost today env lim c source categoryKey =
          (c, false, "Daily total limit reached")) ∧
      (c.total < getTotalLimit env lim →
          c.perSource source ≥ jsOrNat (lim.sourceCap source) 10 →
          canPost today env lim c source categoryKey =
            (c, false, "Daily " ++ sourceName source ++ " limit reached")) ∧
      (c.total < getTotalLimit env lim →
          c.perSource source < jsOrNat (lim.sourceCap source) 10 →
          (lookupNat c.byCategory categoryKey).getD 0 ≥ jsOrNat lim.perCategory 4 →
          canPost today env lim c source categoryKey =
            (c, false, "Category " ++ categoryKey ++ " limit reached")) ∧
      ((canPost today env lim c source categoryKey).2.1 = true ↔
        c.total < getTotalLimit env lim ∧
          c.perSource source < jsOrNat (lim.sourceCap source) 10 ∧
          (lookupNat c.byCategory categoryKey).getD 0 < jsOrNat lim.perCategory 4) ∧
      ((canPost today env lim c source categoryKey).2.1 = true →
        (canPost today env lim c source categoryKey).2.2 = "OK") ∧
      (lim.sourceCap source = none → jsOrNat (lim.sourceCap source) 10 = 10) ∧
      (lim.perCategory = none → jsOrNat lim.perCategory 4 = 4) := by
  have hinit : initCounters false today c = c := initCounters_same_day hd
  refine ⟨?_, ?_, ?_, ?_, ?_, ?_, ?_⟩
  · intro h
    simp [canPost, hinit, h]
  · intro h1 h2
    simp [canPost, hinit, Nat.not_le.mpr h1, h2]
  · intro h1 h2 h3
    simp [canPost, hinit, Nat.not_le.mpr h1, Nat.not_le.mpr h2, h3]
  · constructor
    · intro h
      by_contra hc
      rcases Nat.lt_or_ge c.total (getTotalLimit env lim) with h1 | h1
      · rcases Nat.lt_or_ge (c.perSource source) (jsOrNat (lim.sourceCap source) 10) with h2 | h2
        · rcases Nat.lt_or_ge ((lookupNat c.byCategory categoryKey).getD 0)
            (jsOrNat lim.perCategory 4) with h3 | h3
          · exact hc ⟨h1, h2, h3⟩
          · simp [canPost, hinit, Nat.not_le.mpr h1, Nat.not_le.mpr h2, h3] at h
        · simp [canPost, hinit, Nat.not_le.mpr h1, h2] at h
      · simp [canPost, hinit, h1] at h
    · rintro ⟨h1, h2, h3⟩
      simp [canPost, hinit, Nat.not_le.mpr h1, Nat.not_le.mpr h2, Nat.not_le.mpr h3]
  · intro h
    rcases Nat.lt_or_ge c.total (getTotalLimit env lim) with h1 | h1
    · rcases Nat.lt_or_ge (c.perSource source) (jsOrNat (lim.sourceCap source) 10) with h2 | h2
      · rcases Nat.lt_or_ge ((lookupNat c.byCategory categoryKey).getD 0)
          (jsOrNat lim.perCategory 4) with h3 | h3
        · simp [canPost, hinit, Nat.not_le.mpr h1, Nat.not_le.mpr h2, Nat.not_le.mpr h3]
        · simp [canPost, hinit, Nat.not_le.mpr h1, Nat.not_le.mpr h2, h3] at h
      · simp [canPost, hinit, Nat.not_le.mpr h1, h2] at h
    · simp [canPost, hinit, h1] at h
  · intro h; simp [h, jsOrNat]
  · intro h; simp [h, jsOrNat]

/-- Witness for C2 at a concrete input: counters dated today with the total
cap already reached return the total-limit reason. -/
theorem C2_canPost_check_order_witness :
    ({ flipkart := 3, amazon := 2, total := 5, byCategory := [], date := some "2025-01-01" } : Counters).date
        = some "2025-01-01" ∧
      canPost "2025-01-01" ⟨none, false⟩
          ⟨5, 30, fun _ => some 8, some 4, some 4, true, 3⟩
          { flipkart := 3, amazon := 2, total := 5, byCategory := [], date := some "2025-01-01" }
          Source.flipkart "mobiles" =
        ({ flipkart := 3, amazon := 2, total := 5, byCategory := [], date := some "2025-01-01" },
          false, "Daily total limit reached") := by
  refine ⟨rfl, ?_⟩
  exact (C2_canPost_check_order "2025-01-01" ⟨none, false⟩
    ⟨5, 30, fun _ => some 8, some 4, some 4, true, 3⟩
    { flipkart := 3, amazon := 2, total := 5, byCategory := [], date := some "2025-01-01" }
    Source.flipkart "mobiles" rfl).1 (by decide)

/-! Embedding of `src/lib/dedupe.js`.  The module state `postedProducts` is a
JS `Map` from normalized key to epoch-millisecond timestamp, modelled as an
insertion-ordered association list.  `Date.now()` is the explicit `now`
parameter. -/

/-- JS `String.prototype.toLowerCase` on the basic-latin range, as the
character-wise map used by the dedupe key normalization. -/
def jsToLower (s : String) : String :=
  ⟨s.data.map Char.toLower⟩

/-- The `TTL_MS` module constant: `(limits.deduplication?.ttlDays || 7)` days
in milliseconds. -/
def TTLms (ttlDays : Option Nat) : Nat :=
  jsOrNat ttlDays 7 * 86400000

/-- The `MAX_TRACKED` module constant:
`limits.deduplication?.maxTrackedProducts || 1000`. -/
def maxTracked (cfg : Option Nat) : Nat :=
  jsOrNat cfg 1000

/-- The in-memory `postedProducts` map: normalized key to timestamp. -/
abbrev DMap := List (String × Nat)

/-- The unique key `markPosted` and `isDuplicate` derive from a product id
and source: lowercase source, underscore, product id, the whole lowercased;
just the lowercased id when the source is empty (falsy). -/
def dedupeKey (productId source : String) : String :=
  if source = "" then jsToLower productId
  else jsToLower (jsToLower source ++ "_" ++ productId)

/-- Embedding of `isPosted` of `src/lib/dedupe.js`: membership check with
live TTL re-check and lazy deletion of an expired entry.  Returns the answer
together with the possibly-shrunk map. -/
def isPosted (ttl now : Nat) (m : DMap) (productId : String) : Bool × DMap :=
  if productId = "" then (false, m)
  else
    let normalizedId := jsToLower productId
    match lookupNat m normalizedId with
    | some timestamp =>
      if now - timestamp < ttl then (true, m)
      else (false, m.filter (fun p => p.1 ≠ normalizedId))
    | none => (false, m)

/-- Embedding of `markPosted` of `src/lib/dedupe.js`. -/
def markPosted (now : Nat) (m : DMap) (productId source : String) : DMap :=
  if productId = "" then m
  else mapSet m (dedupeKey productId source) now

/-- Embedding of `isDuplicate` of `src/lib/dedupe.js`: the combined-key
membership check, delegating to `isPosted`. -/
def isDuplicate (ttl now : Nat) (m : DMap) (productId source : String) : Bool × DMap :=
  isPosted ttl now m (dedupeKey productId source)

theorem char_toLower_toLower (c : Char) : c.toLower.toLower = c.toLower := by
  unfold Char.toLower
  by_cases h : c.toNat ≥ 65 ∧ c.toNat ≤ 90
  · rw [if_pos h]
    have hv : Nat.isValidChar (c.toNat + 32) := by
      left; omega
    have ht : (Char.ofNat (c.toNat + 32)).toNat = c.toNat + 32 := by
      rw [Char.ofNat, dif_pos hv]
      simp [Char.ofNatAux, Char.toNat, UInt32.ofNat', UInt32.toNat]
    rw [if_neg]
    omega
  · rw [if_neg h, if_neg h]

theorem jsToLower_jsToLower (s : String) : jsToLower (jsToLower s) = jsToLower s := by
  simp [jsToLower, List.map_map, Function.comp_def, char_toLower_toLower]

theorem jsToLower_ne_empty {s : String} (h : s.data ≠ []) : jsToLower s ≠ "" := by
  intro hc
  apply h
  have hd := congrArg String.data hc
  simpa [jsToLower] using hd

theorem dedupeKey_ne_empty {productId source : String} (hsrc : source ≠ "") :
    dedupeKey productId source ≠ "" := by
  rw [dedupeKey, if_neg hsrc]
  apply jsToLower_ne_empty
  simp [jsToLower]

theorem jsToLower_dedupeKey (productId source : String) :
    jsToLower (dedupeKey productId source) = dedupeKey productId source := by
  rw [dedupeKey]
  split <;> rw [jsToLower_jsToLower]

theorem find?_map_replace (k : String) (v : Nat) (m : DMap) :
    (m.find? (fun p => p.1 == k)).isSome = true →
      ((m.map (fun q => if q.1 == k then (q.1, v) else q)).find? (fun p => p.1 == k)) =
        some (k, v) := by
  induction m with
  | nil => simp
  | cons q qs ih =>
    intro h
    by_cases hq : q.1 = k
    · simp [List.find?_cons, hq]
    · have hq' : (q.1 == k) = false := by simpa using hq
      simp only [List.map_cons, List.find?_cons, hq', if_neg] at h ⊢
      simp only [Bool.false_eq_true, if_false] at h ⊢
      rw [hq', ih (by simpa using h)]

theorem lookupNat_mapSet_self (m : DMap) (k : String) (v : Nat) :
    lookupNat (mapSet m k v) k = some v := by
  unfold mapSet
  split
  · rename_i hfind
    rw [lookupNat, find?_map_replace k v m hfind]
    rfl
  · rw [lookupNat, List.find?_append]
    rename_i hfind
    rw [Option.not_isSome_iff_eq_none] at hfind
    simp [hfind, List.find?]

theorem TTLms_pos (ttlDays : Option Nat) : 0 < TTLms ttlDays := by
  rcases ttlDays with _ | n <;> simp [TTLms, jsOrNat] <;> split <;> omega

theorem maxTracked_pos (cfg : Option Nat) : 0 < maxTracked cfg := by
  rcases cfg with _ | n <;> simp [maxTracked, jsOrNat] <;> split <;> omega

/-- C6: for every product id and non-empty source, `markPosted(id, source)`
followed immediately (same simulated time) by `isDuplicate(id, source)`
returns true, and once simulated time reaches at least TTL past the
`markPosted` timestamp, `isDuplicate(id, source)` returns false: the expired
entry no longer counts as a duplicate. -/
theorem C6_markPosted_isDuplicate_roundtrip (ttlDays : Option Nat)
    (now later : Nat) (m : DMap) (productId source : String)
    (hid : productId ≠ "") (hsrc : source ≠ "")
    (hlater : now + TTLms ttlDays ≤ later) :
    (isDuplicate (TTLms ttlDays) now (markPosted now m productId source) productId source).1
        = true ∧
      (isDuplicate (TTLms ttlDays) later (markPosted now m productId source) productId source).1
        = false := by
  have hkey : dedupeKey productId source ≠ "" := dedupeKey_ne_empty hsrc
  have hmark : markPosted now m productId source = mapSet m (dedupeKey productId source) now := by
    rw [markPosted, if_neg hid]
  have hlook :
      lookupNat (mapSet m (dedupeKey productId source) now)
        (jsToLower (dedupeKey productId source)) = some now := by
    rw [jsToLower_dedupeKey]
    exact lookupNat_mapSet_self m _ now
  constructor
  · rw [isDuplicate, isPosted, if_neg hkey, hmark]
    simp only [hlook]
    simp [TTLms_pos ttlDays]
  · rw [isDuplicate, isPosted, if_neg hkey, hmark]
    simp only [hlook]
    have hexp : ¬ later - now < TTLms ttlDays := by omega
    simp [hexp]

/-- Witness for C6 at a concrete input: id "ABC" and source "Flipkart",
marked at time 5 and re-checked at time 5, then at time 5 + TTL with the
default 7-day TTL. -/
theorem C6_markPosted_isDuplicate_roundtrip_witness :
    ("ABC" ≠ "" ∧ "Flipkart" ≠ "" ∧ 5 + TTLms none ≤ 5 + TTLms none) ∧
      ((isDuplicate (TTLms none) 5 (markPosted 5 [] "ABC" "Flipkart") "ABC" "Flipkart").1
          = true ∧
        (isDuplicate (TTLms none) (5 + TTLms none)
            (markPosted 5 [] "ABC" "Flipkart") "ABC" "Flipkart").1 = false) :=
  ⟨⟨by decide, by decide, Nat.le_refl _⟩,
    C6_markPosted_isDuplicate_roundtrip none 5 (5 + TTLms none) [] "ABC" "Flipkart"
      (by decide) (by decide) (Nat.le_refl _)⟩

/-- Embedding of `cleanupExpired` of `src/lib/dedupe.js`: delete every entry
whose age `now - timestamp` has reached the TTL, keeping the rest in order. -/
def cleanupExpired (ttl now : Nat) (m : DMap) : DMap :=
  m.filter (fun p => now - p.2 < ttl)

/-- Stable insertion of an entry into a timestamp-ascending list, the
building block modelling the stable JS `entries.sort((a, b) => a[1] - b[1])`. -/
def insertByTs (e : String × Nat) : DMap → DMap
  | [] => [e]
  | f :: fs => if e.2 ≤ f.2 then e :: f :: fs else f :: insertByTs e fs

/-- Stable sort by timestamp ascending, modelling the JS array sort used by
`saveToFile`. -/
def sortByTs : DMap → DMap
  | [] => []
  | e :: es => insertByTs e (sortByTs es)

/-- Embedding of `saveToFile` of `src/lib/dedupe.js`: prune expired entries,
then if the size still exceeds `MAX_TRACKED` keep only the newest
`MAX_TRACKED` entries (sort by timestamp ascending, keep the tail, the
`entries.slice(-MAX_TRACKED)`).  The returned list is both the new in-memory
map and the mapping written to the file. -/
def saveToFile (ttl : Nat) (cfg : Option Nat) (now : Nat) (m : DMap) : DMap :=
  let m := cleanupExpired ttl now m
  if maxTracked cfg < m.length then
    (sortByTs m).drop ((sortByTs m).length - maxTracked cfg)
  else m

/-- Embedding of `loadFromFile` of `src/lib/dedupe.js`: rebuild the in-memory
map from the stored mapping, keeping only entries whose age is still under
the TTL. -/
def loadFromFile (ttl now : Nat) (file : DMap) : DMap :=
  file.filter (fun p => now - p.2 < ttl)

theorem mem_insertByTs {x e : String × Nat} {l : DMap} :
    x ∈ insertByTs e l ↔ x = e ∨ x ∈ l := by
  induction l with
  | nil => simp [insertByTs]
  | cons f fs ih =>
    rw [insertByTs]
    split
    · simp
    · simp [ih]
      tauto

theorem length_insertByTs (e : String × Nat) (l : DMap) :
    (insertByTs e l).length = l.length + 1 := by
  induction l with
  | nil => rfl
  | cons f fs ih =>
    rw [insertByTs]
    split
    · rfl
    · simp [ih]

theorem pairwise_insertByTs {e : String × Nat} {l : DMap}
    (h : l.Pairwise (fun a b => a.2 ≤ b.2)) :
    (insertByTs e l).Pairwise (fun a b => a.2 ≤ b.2) := by
  induction l with
  | nil => simp [insertByTs]
  | cons f fs ih =>
    rw [insertByTs]
    rw [List.pairwise_cons] at h
    split
    · rename_i hle
      rw [List.pairwise_cons]
      refine ⟨?_, List.pairwise_cons.mpr h⟩
      intro b hb
      rcases List.mem_cons.mp hb with rfl | hb
      · exact hle
      · exact Nat.le_trans hle (h.1 b hb)
    · rename_i hgt
      rw [List.pairwise_cons]
      refine ⟨?_, ih h.2⟩
      intro b hb
      rcases mem_insertByTs.mp hb with rfl | hb
      · omega
      · exact h.1 b hb

theorem mem_sortByTs {x : String × Nat} {l : DMap} : x ∈ sortByTs l ↔ x ∈ l := by
  induction l with
  | nil => simp [sortByTs]
  | cons e es ih => simp [sortByTs, mem_insertByTs, ih]

theorem length_sortByTs (l : DMap) : (sortByTs l).length = l.length := by
  induction l with
  | nil => rfl
  | cons e es ih => simp [sortByTs, length_insertByTs, ih]

theorem pairwise_sortByTs (l : DMap) :
    (sortByTs l).Pairwise (fun a b => a.2 ≤ b.2) := by
  induction l with
  | nil => simp [sortByTs]
  | cons e es ih => exact pairwise_insertByTs ih

theorem saveToFile_subset_pruned (ttl : Nat) (cfg : Option Nat) (now : Nat)
    (m : DMap) : ∀ e ∈ saveToFile ttl cfg now m, e ∈ cleanupExpired ttl now m := by
  intro e he
  rw [saveToFile] at he
  split at he
  · exact mem_sortByTs.mp (List.mem_of_mem_drop he)
  · exact he

theorem mem_cleanupExpired {ttl now : Nat} {m : DMap} {e : String × Nat} :
    e ∈ cleanupExpired ttl now m ↔ e ∈ m ∧ now - e.2 < ttl := by
  simp [cleanupExpired]

/-- C7: a `saveToFile()` followed by a fresh `loadFromFile()` at the same
simulated time reconstructs the saved mapping unchanged; every reconstructed
entry is a non-expired entry of the pre-save mapping; when at most
`MAX_TRACKED` entries survive pruning the reconstruction is exactly the
non-expired entries; when more survive, exactly `MAX_TRACKED` entries are
kept and every dropped surviving entry has a timestamp at most that of every
kept one (only the most-recently-posted are kept); and the reconstructed size
never exceeds `MAX_TRACKED`. -/
theorem C7_save_load_roundtrip (ttl : Nat) (cfg : Option Nat) (now : Nat)
    (m : DMap) :
    loadFromFile ttl now (saveToFile ttl cfg now m) = saveToFile ttl cfg now m ∧
      (∀ e ∈ loadFromFile ttl now (saveToFile ttl cfg now m),
        e ∈ m ∧ now - e.2 < ttl) ∧
      ((cleanupExpired ttl now m).length ≤ maxTracked cfg →
        loadFromFile ttl now (saveToFile ttl cfg now m) = cleanupExpired ttl now m) ∧
      (maxTracked cfg < (cleanupExpired ttl now m).length →
        (loadFromFile ttl now (saveToFile ttl cfg now m)).length = maxTracked cfg ∧
          ∀ e ∈ cleanupExpired ttl now m,
            e ∉ loadFromFile ttl now (saveToFile ttl cfg now m) →
            ∀ e' ∈ loadFromFile ttl now (saveToFile ttl cfg now m), e.2 ≤ e'.2) ∧
      (loadFromFile ttl now (saveToFile ttl cfg now m)).length ≤ maxTracked cfg := by
  have hid : loadFromFile ttl now (saveToFile ttl cfg now m) = saveToFile ttl cfg now m := by
    rw [loadFromFile, List.filter_eq_self]
    intro e he
    have := (mem_cleanupExpired.mp (saveToFile_subset_pruned ttl cfg now m e he)).2
    simpa using this
  refine ⟨hid, ?_, ?_, ?_, ?_⟩
  · intro e he
    rw [hid] at he
    exact mem_cleanupExpired.mp (saveToFile_subset_pruned ttl cfg now m e he)
  · intro hle
    rw [hid, saveToFile, if_neg (by omega)]
  · intro hgt
    rw [hid, saveToFile, if_pos hgt]
    set s := sortByTs (cleanupExpired ttl now m) with hs
    have hlen : s.length = (cleanupExpired ttl now m).length := length_sortByTs _
    constructor
    · rw [List.length_drop]
      omega
    · intro e he hnot e' he'
      have hes : e ∈ s := by rw [hs, mem_sortByTs]; exact he
      have hsplit : s = s.take (s.length - maxTracked cfg) ++
          s.drop (s.length - maxTracked cfg) := (List.take_append_drop _ s).symm
      have hetake : e ∈ s.take (s.length - maxTracked cfg) := by
        rcases List.mem_append.mp (hsplit ▸ hes) with h | h
        · exact h
        · exact absurd h hnot
      have hp := pairwise_sortByTs (cleanupExpired ttl now m)
      rw [← hs, hsplit, List.pairwise_append] at hp
      exact hp.2.2 e hetake e' he'
  · rw [hid, saveToFile]
    split
    · rename_i hgt
      rw [List.length_drop, length_sortByTs]
      omega
    · omega

/-- Witness for C7 at a concrete input: with TTL 100, cap 2, time 1000 and
four tracked entries of which three survive pruning, the reconstruction has
exactly the cap many entries, and with a one-entry map the reconstruction is
exactly that entry. -/
theorem C7_save_load_roundtrip_witness :
    (maxTracked (some 2) <
        (cleanupExpired 100 1000 [("a", 950), ("b", 999), ("c", 980), ("d", 10)]).length ∧
      (loadFromFile 100 1000
          (saveToFile 100 (some 2) 1000
            [("a", 950), ("b", 999), ("c", 980), ("d", 10)])).length = maxTracked (some 2)) ∧
      ((cleanupExpired 100 1000 [("a", 950)]).length ≤ maxTracked (some 2) ∧
        loadFromFile 100 1000 (saveToFile 100 (some 2) 1000 [("a", 950)]) =
          cleanupExpired 100 1000 [("a", 950)]) :=
  ⟨⟨by decide,
      ((C7_save_load_roundtrip 100 (some 2) 1000
        [("a", 950), ("b", 999), ("c", 980), ("d", 10)]).2.2.2.1 (by decide)).1⟩,
    ⟨by decide,
      (C7_save_load_roundtrip 100 (some 2) 1000 [("a", 950)]).2.2.1 (by decide)⟩⟩

/-- The fields of a fetched product that the core reads: identifier, source
and category key.  An empty id models a missing (falsy) identifier. -/
structure Product where
  id : String
  source : Source
  categoryKey : String
deriving DecidableEq, Repr

/-- Embedding of `filterDuplicates` of `src/lib/dedupe.js`: the JS
`products.filter` evaluates its predicate left to right, and each
`isDuplicate` call may lazily delete an expired entry, so the map threads
through the traversal. -/
def filterDuplicates (ttl now : Nat) : List Product → DMap → List Product × DMap
  | [], m => ([], m)
  | p :: ps, m =>
    if p.id = "" then
      filterDuplicates ttl now ps m
    else
      let d := isDuplicate ttl now m p.id (sourceName p.source)
      let r := filterDuplicates ttl now ps d.2
      (if d.1 then r.1 else p :: r.1, r.2)

/-- A read-only rendering of the `isDuplicate` membership answer, used to
state that lazy deletion never changes any answer. -/
def isDupPure (ttl now : Nat) (m : DMap) (productId source : String) : Bool :=
  let key := dedupeKey productId source
  if key = "" then false
  else
    match lookupNat m (jsToLower key) with
    | some timestamp => now - timestamp < ttl
    | none => false

theorem find?_filter_of_imp {α : Type} (p q : α → Bool) (l : List α)
    (h : ∀ x, p x = true → q x = true) : (l.filter q).find? p = l.find? p := by
  induction l with
  | nil => rfl
  | cons x xs ih =>
    by_cases hq : q x = true
    · rw [List.filter_cons_of_pos hq]
      by_cases hp : p x = true
      · rw [List.find?_cons_of_pos _ hp, List.find?_cons_of_pos _ hp]
      · rw [List.find?_cons_of_neg _ (by simpa using hp),
          List.find?_cons_of_neg _ (by simpa using hp), ih]
    · have hp : p x = false := by
        by_contra hc
        exact hq (h x (by simpa using hc))
      rw [List.filter_cons_of_neg (by simpa using hq),
        List.find?_cons_of_neg _ (by simp [hp]), ih]

theorem find?_filter_none {α : Type} (p q : α → Bool) (l : List α)
    (h : ∀ x, p x = true → q x = false) : (l.filter q).find? p = none := by
  induction l with
  | nil => rfl
  | cons x xs ih =>
    by_cases hq : q x = true
    · have hp : p x = false := by
        by_contra hc
        rw [h x (by simpa using hc)] at hq
        exact Bool.false_ne_true hq
      rw [List.filter_cons_of_pos hq, List.find?_cons_of_neg _ (by simp [hp]), ih]
    · rw [List.filter_cons_of_neg (by simpa using hq), ih]

theorem isPosted_eq (ttl now : Nat) (m : DMap) (productId : String) :
    isPosted ttl now m productId =
      if productId = "" then (false, m)
      else
        match lookupNat m (jsToLower productId) with
        | some timestamp =>
          if now - timestamp < ttl then (true, m)
          else (false, m.filter (fun p => p.1 ≠ jsToLower productId))
        | none => (false, m) := rfl

theorem isDuplicate_fst (ttl now : Nat) (m : DMap) (productId source : String) :
    (isDuplicate ttl now m productId source).1 = isDupPure ttl now m productId source := by
  rw [isDuplicate, isPosted_eq, isDupPure]
  split
  · rfl
  · split
    · rename_i ts _
      by_cases hc : now - ts < ttl <;> simp [hc]
    · rfl

theorem isDupPure_isDuplicate_snd (ttl now : Nat) (m : DMap)
    (productId source productId2 source2 : String) :
    isDupPure ttl now (isDuplicate ttl now m productId source).2 productId2 source2 =
      isDupPure ttl now m productId2 source2 := by
  rw [isDuplicate, isPosted_eq]
  by_cases hk : dedupeKey productId source = ""
  · rw [if_pos hk]
  · rw [if_neg hk]
    rcases hl : lookupNat m (jsToLower (dedupeKey productId source)) with _ | ts
    · simp only [hl]
    · simp only [hl]
      by_cases hfresh : now - ts < ttl
      · rw [if_pos hfresh]
      · rw [if_neg hfresh]
        simp only
        rw [isDupPure, isDupPure]
        by_cases hk2 : dedupeKey productId2 source2 = ""
        · rw [if_pos hk2, if_pos hk2]
        · rw [if_neg hk2, if_neg hk2]
          by_cases heq : jsToLower (dedupeKey productId2 source2) =
              jsToLower (dedupeKey productId source)
          · have hnone : lookupNat
                (m.filter (fun p => p.1 ≠ jsToLower (dedupeKey productId source)))
                (jsToLower (dedupeKey productId2 source2)) = none := by
              rw [lookupNat, find?_filter_none]
              · rfl
              · intro x hx
                have : x.1 = jsToLower (dedupeKey productId2 source2) := by
                  simpa using hx
                simp [this, heq]
            rw [hnone, heq, hl]
            simp [hfresh]
          · have hsame : lookupNat
                (m.filter (fun p => p.1 ≠ jsToLower (dedupeKey productId source)))
                (jsToLower (dedupeKey productId2 source2)) =
                  lookupNat m (jsToLower (dedupeKey productId2 source2)) := by
              rw [lookupNat, lookupNat, find?_filter_of_imp]
              intro x hx
              have hx1 : x.1 = jsToLower (dedupeKey productId2 source2) := by
                simpa using hx
              simp [hx1, heq]
            rw [hsame]

theorem filterDuplicates_fst (ttl now : Nat) (ps : List Product) (m : DMap) :
    (filterDuplicates ttl now ps m).1 =
      ps.filter (fun p => !(p.id == "") &&
        !(isDuplicate ttl now m p.id (sourceName p.source)).1) := by
  induction ps generalizing m with
  | nil => rfl
  | cons p ps ih =>
    rw [filterDuplicates]
    by_cases hid : p.id = ""
    · rw [if_pos hid, List.filter_cons_of_neg (by simp [hid]), ih]
    · rw [if_neg hid]
      simp only
      have htail : (filterDuplicates ttl now ps
          (isDuplicate ttl now m p.id (sourceName p.source)).2).1 =
          ps.filter (fun q => !(q.id == "") &&
            !(isDuplicate ttl now m q.id (sourceName q.source)).1) := by
        rw [ih]
        apply List.filter_congr
        intro q _
        rw [isDuplicate_fst, isDuplicate_fst, isDupPure_isDuplicate_snd]
      by_cases hdup : (isDuplicate ttl now m p.id (sourceName p.source)).1 = true
      · rw [List.filter_cons_of_neg (by simp [hdup])]
        simp only [hdup, if_pos]
        exact htail
      · rw [List.filter_cons_of_pos (by simp [hid, Bool.eq_false_iff.mpr hdup])]
        simp only [Bool.eq_false_iff.mpr hdup, Bool.false_eq_true, if_false]
        rw [htail]

/-- C8: `filterDuplicates` returns exactly the items whose id is present and
whose `isDuplicate(id, source)` check against the entry state is false,
preserving the original relative order (stated as equality with a `filter`);
and concretely, for a 5-product list where items 2 and 4 were previously
marked posted with matching source, it returns exactly items 1, 3 and 5 in
original order. -/
theorem C8_filterDuplicates (ttl now : Nat) (ps : List Product) (m : DMap) :
    ((filterDuplicates ttl now ps m).1 =
        ps.filter (fun p => !(p.id == "") &&
          !(isDuplicate ttl now m p.id (sourceName p.source)).1)) ∧
      (filterDuplicates (TTLms none) 500
          [⟨"A1", .flipkart, "c"⟩, ⟨"A2", .flipkart, "c"⟩, ⟨"A3", .flipkart, "c"⟩,
            ⟨"A4", .flipkart, "c"⟩, ⟨"A5", .flipkart, "c"⟩]
          (markPosted 500 (markPosted 500 [] "A2" "flipkart") "A4" "flipkart")).1 =
        [⟨"A1", .flipkart, "c"⟩, ⟨"A3", .flipkart, "c"⟩, ⟨"A5", .flipkart, "c"⟩] :=
  ⟨filterDuplicates_fst ttl now ps m, by decide⟩

/-! Embedding of `selectCategories` of `src/lib/scheduler.js`: weighted
sampling without replacement.  `Math.floor(Math.random() * weighted.length)`
is modelled by an arbitrary stream `rand` of naturals reduced modulo the
current multiset size, so every possible sequence of draws is covered. -/

theorem length_filter_ne_lt {a : String} {l : List String} (h : a ∈ l) :
    (l.filter (fun x => x ≠ a)).length < l.length := by
  induction l with
  | nil => simp at h
  | cons x xs ih =>
    by_cases hx : x = a
    · rw [List.filter_cons_of_neg (by simp [hx])]
      have := List.length_filter_le (fun x => decide (x ≠ a)) xs
      simp only [List.length_cons]
      omega
    · rw [List.filter_cons_of_pos (by simp [hx])]
      rcases List.mem_cons.mp h with rfl | hmem
      · exact absurd rfl hx
      · have := ih hmem
        simp only [List.length_cons]
        omega

/-- The `while` loop of `selectCategories`: draw a random element of the
remaining weighted multiset, append it to the selection when not already
selected, then remove every occurrence of the drawn key; stop when `count`
keys are selected or the multiset is exhausted. -/
def selectLoop (count : Nat) (rand : Nat → Nat) (step : Nat)
    (selected : List String) (weighted : List String) : List String :=
  if h : selected.length < count ∧ weighted ≠ [] then
    have hlen : 0 < weighted.length := List.length_pos.mpr h.2
    let index := rand step % weighted.length
    have hidx : index < weighted.length := Nat.mod_lt _ hlen
    let category := weighted.get ⟨index, hidx⟩
    let selected' := if selected.contains category then selected else selected ++ [category]
    selectLoop count rand (step + 1) selected'
      (weighted.filter (fun x => x ≠ category))
  else selected
termination_by weighted.length
decreasing_by
  exact length_filter_ne_lt (List.get_mem weighted _ _)

/-- The weighted multiset `selectCategories` builds: each category key
repeated `categories[key].weight || 1` times, in configuration order. -/
def buildWeighted (cats : List (String × Option Nat)) : List String :=
  (cats.map (fun kv => List.replicate (jsOrNat kv.2 1) kv.1)).flatten

/-- Embedding of `selectCategories` of `src/lib/scheduler.js`. -/
def selectCategories (count : Nat) (cats : List (String × Option Nat))
    (rand : Nat → Nat) : List String :=
  selectLoop count rand 0 [] (buildWeighted cats)

theorem selectLoop_step (count : Nat) (rand : Nat → Nat) (step : Nat)
    (selected weighted : List String) (h : selected.length < count ∧ weighted ≠ []) :
    selectLoop count rand step selected weighted =
      selectLoop count rand (step + 1)
        (if selected.contains (weighted.get ⟨rand step % weighted.length,
            Nat.mod_lt _ (List.length_pos.mpr h.2)⟩) then selected
          else selected ++ [weighted.get ⟨rand step % weighted.length,
            Nat.mod_lt _ (List.length_pos.mpr h.2)⟩])
        (weighted.filter (fun x => x ≠ weighted.get ⟨rand step % weighted.length,
            Nat.mod_lt _ (List.length_pos.mpr h.2)⟩)) := by
  rw [selectLoop, dif_pos h]

theorem selectLoop_stop (count : Nat) (rand : Nat → Nat) (step : Nat)
    (selected weighted : List String)
    (h : ¬(selected.length < count ∧ weighted ≠ [])) :
    selectLoop count rand step selected weighted = selected := by
  rw [selectLoop, dif_neg h]

theorem selectLoop_props (count : Nat) (rand : Nat → Nat) :
    ∀ weighted : List String, ∀ step : Nat, ∀ selected : List String,
      selected.Nodup → selected.length ≤ count →
      (selectLoop count rand step selected weighted).Nodup ∧
        (selectLoop count rand step selected weighted).length ≤ count ∧
        ∀ x ∈ selectLoop count rand step selected weighted,
          x ∈ selected ∨ x ∈ weighted := by
  suffices h : ∀ n : Nat, ∀ weighted : List String, weighted.length = n →
      ∀ step : Nat, ∀ selected : List String,
      selected.Nodup → selected.length ≤ count →
      (selectLoop count rand step selected weighted).Nodup ∧
        (selectLoop count rand step selected weighted).length ≤ count ∧
        ∀ x ∈ selectLoop count rand step selected weighted,
          x ∈ selected ∨ x ∈ weighted by
    intro weighted
    exact h weighted.length weighted rfl
  intro n
  induction n using Nat.strong_induction_on with
  | _ n ihn =>
  intro weighted hn step selected hnd hle
  by_cases h : selected.length < count ∧ weighted ≠ []
  · rw [selectLoop_step count rand step selected weighted h]
    set category := weighted.get ⟨rand step % weighted.length,
      Nat.mod_lt _ (List.length_pos.mpr h.2)⟩ with hcat
    have hmem : category ∈ weighted := List.get_mem weighted _ _
    have hrec := ihn (weighted.filter (fun x => x ≠ category)).length
      (by rw [← hn]; exact length_filter_ne_lt hmem)
      (weighted.filter (fun x => x ≠ category)) rfl (step + 1)
    by_cases hsel : selected.contains category
    · rw [if_pos hsel]
      have hr := hrec selected hnd hle
      refine ⟨hr.1, hr.2.1, ?_⟩
      intro x hx
      rcases hr.2.2 x hx with hx' | hx'
      · exact Or.inl hx'
      · exact Or.inr (List.mem_of_mem_filter hx')
    · rw [if_neg hsel]
      have hnd' : (selected ++ [category]).Nodup := by
        rw [List.nodup_append]
        refine ⟨hnd, List.nodup_singleton _, ?_⟩
        intro x hx
        simp only [List.mem_singleton]
        intro hxc
        subst hxc
        exact hsel (List.elem_iff.mpr hx)
      have hle' : (selected ++ [category]).length ≤ count := by
        simp only [List.length_append, List.length_singleton]
        omega
      have hr := hrec (selected ++ [category]) hnd' hle'
      refine ⟨hr.1, hr.2.1, ?_⟩
      intro x hx
      rcases hr.2.2 x hx with hx' | hx'
      · rcases List.mem_append.mp hx' with hx'' | hx''
        · exact Or.inl hx''
        · rw [List.mem_singleton] at hx''
          subst hx''
          exact Or.inr hmem
      · exact Or.inr (List.mem_of_mem_filter hx')
  · rw [selectLoop_stop count rand step selected weighted h]
    exact ⟨hnd, hle, fun x hx => Or.inl hx⟩

theorem mem_buildWeighted {x : String} {cats : List (String × Option Nat)}
    (h : x ∈ buildWeighted cats) : x ∈ cats.map Prod.fst := by
  rw [buildWeighted, List.mem_flatten] at h
  obtain ⟨l, hl, hx⟩ := h
  rw [List.mem_map] at hl
  obtain ⟨kv, hkv, rfl⟩ := hl
  rw [List.eq_of_mem_replicate hx]
  exact List.mem_map.mpr ⟨kv, hkv, rfl⟩

/-- C9: for every count, weighted category configuration and sequence of
random draws, `selectCategories` returns pairwise-distinct category keys, at
most `count` of them, all drawn from the configured keys; and when fewer
categories are configured than `count`, strictly fewer than `count` keys are
returned. -/
theorem C9_selectCategories_distinct_bounded (count : Nat)
    (cats : List (String × Option Nat)) (rand : Nat → Nat) :
    (selectCategories count cats rand).Nodup ∧
      (selectCategories count cats rand).length ≤ count ∧
      (∀ x ∈ selectCategories count cats rand, x ∈ cats.map Prod.fst) ∧
      ((cats.map Prod.fst).length < count →
        (selectCategories count cats rand).length < count) := by
  have hp := selectLoop_props count rand (buildWeighted cats) 0 []
    List.nodup_nil (Nat.zero_le count)
  have hsub : ∀ x ∈ selectCategories count cats rand, x ∈ cats.map Prod.fst := by
    intro x hx
    rcases hp.2.2 x hx with hx' | hx'
    · simp at hx'
    · exact mem_buildWeighted hx'
  refine ⟨hp.1, hp.2.1, hsub, ?_⟩
  intro hkeys
  have hcard : (selectCategories count cats rand).toFinset.card =
      (selectCategories count cats rand).length :=
    List.toFinset_card_of_nodup hp.1
  have hsub' : (selectCategories count cats rand).toFinset ⊆ (cats.map Prod.fst).toFinset := by
    intro a ha
    rw [List.mem_toFinset] at ha
    rw [List.mem_toFinset]
    exact hsub a ha
  have hle2 : (cats.map Prod.fst).toFinset.card ≤ (cats.map Prod.fst).length :=
    List.toFinset_card_le _
  have := Finset.card_le_card hsub'
  omega

/-- Witness for C9 at a concrete input: two configured categories and a
requested count of three yield fewer than three keys. -/
theorem C9_selectCategories_distinct_bounded_witness :
    (([("a", some 2), ("b", none)].map Prod.fst).length < 3) ∧
      (selectCategories 3 [("a", some 2), ("b", none)] (fun _ => 0)).length < 3 :=
  ⟨by decide,
    (C9_selectCategories_distinct_bounded 3 [("a", some 2), ("b", none)]
      (fun _ => 0)).2.2.2 (by decide)⟩

/-! Embedding of `src/lib/telegram.js`.  A thrown JS error is an
`Except.error` carrying the error message; a `try/catch` is a `match` on the
body's `Except` value.  The outcome of each underlying HTTP send is an
oracle value: `success` models a resolved fetch whose response has
`data.ok`, `apiError msg` models everything `sendMessage` turns into a
thrown error (network failure, non-ok response, rate limit). -/

/-- Outcome of one underlying Telegram API send. -/
inductive SendOutcome
  | success
  | apiError (msg : String)
deriving DecidableEq, Repr

/-- Character-list prefix test, building block for the substring check. -/
def startsChars : List Char → List Char → Bool
  | [], _ => true
  | _ :: _, [] => false
  | c :: cs, d :: ds => c == d && startsChars cs ds

/-- Does the pattern occur as a contiguous run of the character list? -/
def containsChars (pat : List Char) : List Char → Bool
  | [] => pat.isEmpty
  | d :: ds => startsChars pat (d :: ds) || containsChars pat ds

/-- JS `String.prototype.includes`: substring occurrence test. -/
def jsIncludes (s sub : String) : Bool :=
  containsChars sub.data s.data

/-- Embedding of `sendMessage` of `src/lib/telegram.js`: resolves on
success, rethrows the API error otherwise. -/
def sendMessage : SendOutcome → Except String Unit
  | .success => .ok ()
  | .apiError msg => .error msg

/-- Embedding of `sendPhoto` of `src/lib/telegram.js`: its catch-all turns
any send failure into a `null` result. -/
def sendPhoto (o : SendOutcome) : Except String (Option Unit) :=
  match sendMessage o with
  | .ok _ => .ok (some ())
  | .error _ => .ok none

/-- The retry `for` loop of `sendMessageWithRetry`: `fuel` is the number of
attempts still allowed after the current one, `attempt` indexes the outcome
oracle.  Each `sendMessage` failure is caught; a rate-limit message breaks
out of the loop; after the last attempt the loop falls through to
`return null`. -/
def retryFrom (oracle : Nat → SendOutcome) (attempt : Nat) : Nat → Except String (Option Unit)
  | 0 =>
    match sendMessage (oracle attempt) with
    | .ok _ => .ok (some ())
    | .error _ => .ok none
  | fuel + 1 =>
    match sendMessage (oracle attempt) with
    | .ok _ => .ok (some ())
    | .error e =>
      if jsIncludes e "Too Many Requests" then .ok none
      else retryFrom oracle (attempt + 1) fuel

/-- Embedding of `sendMessageWithRetry` of `src/lib/telegram.js`. -/
def sendMessageWithRetry (lim : Limits) (oracle : Nat → SendOutcome) :
    Except String (Option Unit) :=
  retryFrom oracle 0 (if lim.retryOnFailure then lim.maxRetries else 0)

/-- Embedding of `postDeal` of `src/lib/telegram.js`: try to send as a photo
when a usable image URL is present, falling back to the retried text send,
with a catch-all converting any escaped error into `false`. -/
def postDeal (lim : Limits) (imageUrl : Option String) (photoOutcome : SendOutcome)
    (oracle : Nat → SendOutcome) : Except String Bool :=
  let viaText : Except String Bool :=
    (sendMessageWithRetry lim oracle).map (fun r => r.isSome)
  let body : Except String Bool :=
    match imageUrl with
    | some url =>
      if url.startsWith "http" then
        match sendPhoto photoOutcome with
        | .ok (some _) => .ok true
        | .ok none => viaText
        | .error e => .error e
      else viaText
    | none => viaText
  match body with
  | .ok b => .ok b
  | .error _ => .ok false

theorem retryFrom_none (oracle : Nat → SendOutcome)
    (h : ∀ n, oracle n ≠ .success) :
    ∀ fuel attempt, retryFrom oracle attempt fuel = .ok none := by
  intro fuel
  induction fuel with
  | zero =>
    intro attempt
    rw [retryFrom]
    rcases ho : oracle attempt with _ | msg
    · exact absurd ho (h attempt)
    · rfl
  | succ fuel ih =>
    intro attempt
    rw [retryFrom]
    rcases ho : oracle attempt with _ | msg
    · exact absurd ho (h attempt)
    · simp only [sendMessage]
      split

      · rfl
      · exact ih (attempt + 1)

/-- C10: `postDeal` never raises: for every input and every outcome of the
underlying send operations it returns `Except.ok` of a boolean; and when
every underlying send fails (exhausted retries, photo-send failure,
rate-limit responses included), the returned boolean is `false` rather than
a propagated thrown condition. -/
theorem C10_postDeal_never_raises (lim : Limits) (imageUrl : Option String)
    (photoOutcome : SendOutcome) (oracle : Nat → SendOutcome) :
    (∃ b : Bool, postDeal lim imageUrl photoOutcome oracle = .ok b) ∧
      ((∀ n, oracle n ≠ .success) → photoOutcome ≠ .success →
        postDeal lim imageUrl photoOutcome oracle = .ok false) := by
  constructor
  · simp only [postDeal.eq_def]
    rcases hb : (match imageUrl with
      | some url =>
        if url.startsWith "http" then
          match sendPhoto photoOutcome with
          | .ok (some _) => .ok true
          | .ok none => (sendMessageWithRetry lim oracle).map (fun r => r.isSome)
          | .error e => .error e
        else (sendMessageWithRetry lim oracle).map (fun r => r.isSome)
      | none => (sendMessageWithRetry lim oracle).map (fun r => r.isSome) :
        Except String Bool) with e | b
    · exact ⟨false, rfl⟩
    · exact ⟨b, rfl⟩
  · intro horacle hphoto
    have htext : (sendMessageWithRetry lim oracle).map (fun r => r.isSome) = .ok false := by
      rw [sendMessageWithRetry, retryFrom_none oracle horacle]
      rfl
    have hph : sendPhoto photoOutcome = .ok none := by
      rcases photoOutcome with _ | msg
      · exact absurd rfl hphoto
      · rfl
    rcases imageUrl with _ | url
    · simp [postDeal.eq_def, htext]
    · by_cases hurl : url.startsWith "http"
      · simp [postDeal.eq_def, hurl, hph, htext]
      · simp [postDeal.eq_def, hurl, htext]

/-- Witness for C10 at a concrete input: a transport whose every attempt is
rate-limited, and a failing photo send, yield `Except.ok false`. -/
theorem C10_postDeal_never_raises_witness :
    postDeal ⟨30, 50, fun _ => some 10, some 4, some 4, true, 3⟩
        (some "https://img.example/x.jpg") (.apiError "photo failed")
        (fun _ => .apiError "Too Many Requests: retry after 30") = .ok false :=
  (C10_postDeal_never_raises ⟨30, 50, fun _ => some 10, some 4, some 4, true, 3⟩
      (some "https://img.example/x.jpg") (.apiError "photo failed")
      (fun _ => .apiError "Too Many Requests: retry after 30")).2
    (fun n h => by simp at h) (by simp)

/-! Embedding of `postProducts` of `src/api/run.js`: the orchestrated
posting loop.  The transport is abstracted as `pd`, mapping the index of the
post attempt to what `telegram.postDeal` returns for it (an `Except` so a
thrown error can be modelled; the theorems compose it with the `postDeal`
model above). -/

/-- The `results` accumulator of `postProducts`. -/
structure RunResults where
  posted : Nat
  skipped : Nat
  failed : Nat
  flipkart : Nat
  amazon : Nat
  errors : List String
deriving DecidableEq, Repr

/-- JS `results[product.source]++`. -/
def RunResults.bumpSource (r : RunResults) : Source → RunResults
  | .flipkart => { r with flipkart := r.flipkart + 1 }
  | .amazon => { r with amazon := r.amazon + 1 }

/-- State threaded through the posting loop: results accumulator, scheduler
counters, dedupe map, and the index of the next transport attempt. -/
structure LoopState where
  results : RunResults
  counters : Counters
  dmap : DMap
  attempt : Nat
deriving DecidableEq, Repr

/-- The `for` loop of `postProducts`: stop when the session target is
reached; skip on a failed `canPost` or a duplicate; otherwise invoke the
transport, recording success (and updating dedupe map and counters) or
failure, and aborting the loop when a thrown error message signals a rate
limit. -/
def postLoop (today : String) (env : Env) (lim : Limits) (ttl now : Nat)
    (pd : Nat → Except String Bool) (target : Int) :
    List Product → LoopState → LoopState
  | [], st => st
  | p :: ps, st =>
    if (st.results.posted : Int) ≥ target then st
    else
      let cp := canPost today env lim st.counters p.source p.categoryKey
      if cp.2.1 = false then
        postLoop today env lim ttl now pd target ps
          { st with
            results := { st.results with skipped := st.results.skipped + 1 },
            counters := cp.1 }
      else
        let dup := isDuplicate ttl now st.dmap p.id (sourceName p.source)
        if dup.1 = true then
          postLoop today env lim ttl now pd target ps
            { st with
              results := { st.results with skipped := st.results.skipped + 1 },
              counters := cp.1,
              dmap := dup.2 }
        else
          match pd st.attempt with
          | .ok true =>
            postLoop today env lim ttl now pd target ps
              { results := ({ st.results with
                    posted := st.results.posted + 1 }).bumpSource p.source,
                counters := incrementCounters today cp.1 p.source p.categoryKey,
                dmap := markPosted now dup.2 p.id (sourceName p.source),
                attempt := st.attempt + 1 }
          | .ok false =>
            postLoop today env lim ttl now pd target ps
              { results := { st.results with
                  failed := st.results.failed + 1,
                  errors := st.results.errors ++ ["Failed to post: " ++ p.id] },
                counters := cp.1,
                dmap := dup.2,
                attempt := st.attempt + 1 }
          | .error e =>
            let st' : LoopState :=
              { results := { st.results with
                  failed := st.results.failed + 1,
                  errors := st.results.errors ++ [e] },
                counters := cp.1,
                dmap := dup.2,
                attempt := st.attempt + 1 }
            if jsIncludes e "Too Many Requests" then st'
            else postLoop today env lim ttl now pd target ps st'

/-- Embedding of `postProducts` of `src/api/run.js`: compute the session
target, run the loop from zeroed results, return results, counters and
dedupe map. -/
def postProducts (today : String) (env : Env) (lim : Limits) (ttl now : Nat)
    (pd : Nat → Except String Bool) (products : List Product)
    (c : Counters) (m : DMap) : RunResults × Counters × DMap :=
  let t := getPostsForSession today env lim c
  let st := postLoop today env lim ttl now pd t.2 products
    ⟨⟨0, 0, 0, 0, 0, []⟩, t.1, m, 0⟩
  (st.results, st.counters, st.dmap)

/-- Generous limits for the rate-limit scenario: caps far above five posts. -/
def limFive : Limits :=
  ⟨100, 200, fun _ => some 100, some 100, some 10, true, 3⟩

/-- The five candidates of the rate-limit scenario, one category, flipkart. -/
def fiveProducts : List Product :=
  [⟨"p1", .flipkart, "cat"⟩, ⟨"p2", .flipkart, "cat"⟩, ⟨"p3", .flipkart, "cat"⟩,
    ⟨"p4", .flipkart, "cat"⟩, ⟨"p5", .flipkart, "cat"⟩]

/-- Transport for the rate-limit scenario, composed from the `postDeal`
model: every underlying send of the second post attempt (index 1) answers
with the Telegram rate-limit error, every other send succeeds. -/
def pdRateLimited : Nat → Except String Bool := fun n =>
  postDeal limFive none .success
    (fun _ => if n = 1 then .apiError "Too Many Requests: retry after 30" else .success)

/-- C3: the claim says a rate-limited second attempt in a 5-candidate run
yields 1 posted, 1 failed and 3 never attempted.  The code disagrees:
`telegram.postDeal` swallows the rate-limit error and returns `false`
instead of throwing, so `postProducts` takes its
failed-post branch, never reaches its rate-limit `break`, and continues: the
run posts candidates 1, 3, 4, 5, records one failure for candidate 2, and
skips nothing.  This evaluates the embedded pipeline at the claim's exact
scenario and exhibits the divergence. -/
theorem C3_rate_limit_does_not_abort :
    (postProducts "2025-01-01" ⟨none, false⟩ limFive (TTLms none) 1000
        pdRateLimited fiveProducts (mkFreshCounters "2025-01-01") []).1 =
      ⟨4, 0, 1, 4, 0, ["Failed to post: p2"]⟩ := by
  decide

/-- Limits for the two-categories scenario: total cap 2, per-category cap 1,
default posts-per-slot. -/
def limTwo : Limits :=
  ⟨2, 30, fun _ => some 10, some 1, none, false, 0⟩

/-- Four candidates, two per category, same-category candidates adjacent. -/
def fourProducts : List Product :=
  [⟨"a1", .flipkart, "catA"⟩, ⟨"a2", .flipkart, "catA"⟩,
    ⟨"b1", .flipkart, "catB"⟩, ⟨"b2", .flipkart, "catB"⟩]

/-- An always-succeeding transport. -/
def pdAlwaysOk : Nat → Except String Bool := fun _ => .ok true

/-- C4 counterexample: in the claim's scenario (total cap 2, two categories
with one allowed post each, 4 candidates, always-succeeding transport) the
run posts exactly 2 but skips only 1, not 2: the session target
`min(postsPerSlot, remaining) = 2` stops the loop as soon as the second post
succeeds, so the final candidate is never attempted and never counted as
skipped.  The claim's "exactly 2 skipped" is false at this input. -/
theorem C4_two_skipped_is_false :
    (postProducts "2025-01-01" ⟨none, false⟩ limTwo (TTLms none) 1000
          pdAlwaysOk fourProducts (mkFreshCounters "2025-01-01") []).1.posted = 2 ∧
      (postProducts "2025-01-01" ⟨none, false⟩ limTwo (TTLms none) 1000
          pdAlwaysOk fourProducts (mkFreshCounters "2025-01-01") []).1.skipped = 1 ∧
      ¬ (postProducts "2025-01-01" ⟨none, false⟩ limTwo (TTLms none) 1000
          pdAlwaysOk fourProducts (mkFreshCounters "2025-01-01") []).1.skipped = 2 := by
  decide

/-- C4 as amended: the same scenario yields exactly 2 posted, 1 skipped (the
second candidate of the first category, blocked by its category cap), no
failures, and the loop ends with `stats.total == 2`; the fourth candidate is
never attempted because the session target of 2 is already met. -/
theorem C4_run_two_posted_one_skipped :
    (postProducts "2025-01-01" ⟨none, false⟩ limTwo (TTLms none) 1000
        pdAlwaysOk fourProducts (mkFreshCounters "2025-01-01") []).1 =
      ⟨2, 1, 0, 2, 0, []⟩ ∧
    (postProducts "2025-01-01" ⟨none, false⟩ limTwo (TTLms none) 1000
        pdAlwaysOk fourProducts (mkFreshCounters "2025-01-01") []).2.1.total = 2 := by
  decide

/-- Counters as they might stand mid-run: dated to the day the run started,
with five posts already recorded. -/
def midRunCounters : Counters :=
  ⟨2, 3, 5, [("x", 5)], some "2025-01-01"⟩

/-- C5 counterexample: the claim says the counters read at the start of a
run are used throughout, with no mid-run re-check of the calendar day, so a
day change would leave them unreset.  In the code every `canPost` and
`incrementCounters` call re-derives today inside `initCounters`: when the
day has rolled over to 2025-01-02, `incrementCounters` resets the counters
and yields total 1, not the un-reset 5 + 1 = 6, and `canPost` returns the
freshly reset counters with total 0. -/
theorem C5_midrun_day_change_resets :
    midRunCounters.total = 5 ∧
      (incrementCounters "2025-01-02" midRunCounters Source.flipkart "x").total = 1 ∧
      ¬ (incrementCounters "2025-01-02" midRunCounters Source.flipkart "x").total =
          midRunCounters.total + 1 ∧
      (canPost "2025-01-02" ⟨none, false⟩ limTwo midRunCounters Source.flipkart "x").1.total
        = 0 := by
  decide

/-- C5 as amended: each `canPost` and `incrementCounters` call re-checks the
current calendar day via `initCounters` and resets the counters when it
differs from the stored day; within a run during which the day does not
change, the counters are never reset: `initCounters` is a no-op, `canPost`
returns the counters unchanged, and `incrementCounters` only increments the
total. -/
theorem C5_same_day_no_reset (today : String) (env : Env) (lim : Limits)
    (c : Counters) (source : Source) (categoryKey : String)
    (hd : c.date = some today) :
    initCounters false today c = c ∧
      (canPost today env lim c source categoryKey).1 = c ∧
      (incrementCounters today c source categoryKey).total = c.total + 1 ∧
      (∀ other : String, other ≠ today → c.date ≠ some other →
        (incrementCounters other c source categoryKey).total = 1) := by
  have hinit : initCounters false today c = c := initCounters_same_day hd
  refine ⟨hinit, ?_, ?_, ?_⟩
  · rw [canPost]
    simp only [hinit]
    split
    · rfl
    · split
      · rfl
      · split
        · rfl
        · rfl
  · cases source <;> simp [incrementCounters, hinit]
  · intro other hne hcd
    have : initCounters false other c = mkFreshCounters other := by
      rw [initCounters, if_pos]
      exact Or.inr hcd
    cases source <;> simp [incrementCounters, this, mkFreshCounters]

/-- Witness for C5's amended theorem at a concrete input: same-day calls
leave the mid-run counters alone; a day change resets. -/
theorem C5_same_day_no_reset_witness :
    midRunCounters.date = some "2025-01-01" ∧
      (canPost "2025-01-01" ⟨none, false⟩ limFive midRunCounters Source.amazon "x").1
          = midRunCounters ∧
      (incrementCounters "2025-01-01" midRunCounters Source.amazon "x").total =
        midRunCounters.total + 1 :=
  ⟨rfl,
    (C5_same_day_no_reset "2025-01-01" ⟨none, false⟩ limFive midRunCounters
      Source.amazon "x" rfl).2.1,
    (C5_same_day_no_reset "2025-01-01" ⟨none, false⟩ limFive midRunCounters
      Source.amazon "x" rfl).2.2.1⟩

end DailyTrendz
